import Mathlib

/-!
Shallow embedding of the cart and orders routes of the storefront backend
(`routes/cart.js` and `routes/orders.js`, the two Express routers holding
state in module-level `Map`s), and of the checkout calculator in
`frontend/src/pages/CartPage.js`.  JavaScript numbers are modelled as exact
rationals; the `undefined` value and `NaN`, which genuinely reach the cart's
`quantity` field, are modelled explicitly.
-/

namespace QodoShop

/-- A JavaScript value that can sit in a cart item's `quantity` field: an
ordinary number (modelled as an exact rational), `undefined` (a request body
omitting the field), or `NaN` (arithmetic on `undefined`). -/
inductive JsVal where
  | num (q : ℚ)
  | undefined
  | nan
  deriving DecidableEq

/-- JavaScript `+` restricted to the values above: numbers add, and any
operand that is `undefined` or `NaN` makes the result `NaN`. -/
def jsAdd : JsVal → JsVal → JsVal
  | .num a, .num b => .num (a + b)
  | _, _ => .nan

/-- JavaScript `v < 1`: comparisons against `undefined` or `NaN` are `false`. -/
def jsLtOne : JsVal → Bool
  | .num q => decide (q < 1)
  | _ => false

/-- Truthiness test for an optional string: a missing value and the empty
string are falsy (`!productId`, `!status`). -/
def strFalsy : Option String → Bool
  | none => true
  | some s => s == ""

/-- JavaScript `x || d` on an optional string: the default replaces both a
missing value and the (falsy) empty string. -/
def jsOrStr : Option String → String → String
  | none, d => d
  | some s, d => if s == "" then d else s

/-- The numeric payload of a `JsVal`, zero for the non-numeric values. -/
def qnum : JsVal → ℚ
  | .num q => q
  | _ => 0

/-- Error response of a handler: HTTP status code and message. -/
structure ApiErr where
  code : ℕ
  msg : String
  deriving DecidableEq

/-- A cart line item as built by the add handler:
`{ id: uuidv4(), productId, quantity, addedAt: new Date().toISOString() }`.
The generated uuid is a `String` supplied by the caller of the model;
the timestamp is an abstract tick. -/
structure CartItem where
  id : String
  productId : String
  quantity : JsVal
  addedAt : ℕ
  deriving DecidableEq

/-- A cart record `{ items: [], total: 0, itemCount: 0 }`. -/
structure Cart where
  items : List CartItem
  total : ℚ
  itemCount : JsVal
  deriving DecidableEq

/-- The default cart `{ items: [], total: 0, itemCount: 0 }`. -/
def emptyCart : Cart := ⟨[], 0, .num 0⟩

/-- `cart.items.reduce((sum, item) => sum + item.quantity, 0)`. -/
def sumQuantities (items : List CartItem) : JsVal :=
  items.foldl (fun s it => jsAdd s it.quantity) (.num 0)

/-- The module-level `carts = new Map()`, keyed by userId. -/
abbrev CartStore := List (String × Cart)

/-- `carts.get(userId)`. -/
def storeGet : CartStore → String → Option Cart
  | [], _ => none
  | (k, v) :: rest, u => if k == u then some v else storeGet rest u

/-- `carts.set(userId, cart)`: replace the binding if present, else append. -/
def storeSet : CartStore → String → Cart → CartStore
  | [], u, c => [(u, c)]
  | (k, v) :: rest, u, c =>
    if k == u then (u, c) :: rest else (k, v) :: storeSet rest u c

/-- `carts.delete(userId)`. -/
def storeDelete : CartStore → String → CartStore
  | [], _ => []
  | (k, v) :: rest, u =>
    if k == u then storeDelete rest u else (k, v) :: storeDelete rest u

/-- GET `/:userId`: the stored cart, or the default cart when none exists. -/
def getCart (s : CartStore) (userId : String) : Cart :=
  (storeGet s userId).getD emptyCart

/-- `cart.items[existingItemIndex].quantity += quantity`: bump the quantity
of the first item whose `productId` matches. -/
def bumpFirst : List CartItem → String → ℚ → List CartItem
  | [], _, _ => []
  | it :: rest, pid, q =>
    if it.productId == pid then { it with quantity := jsAdd it.quantity (.num q) } :: rest
    else it :: bumpFirst rest pid q

/-- POST `/:userId/items`: add an item to the cart.  The body's `quantity`
defaults to `1` when absent; the guard rejects a falsy `productId` or a
quantity below 1; an existing line for the same product is bumped, otherwise
a new line is appended; `itemCount` is then recomputed as the sum of
quantities.  `newId` stands for the generated `uuidv4()` and `now` for the
`addedAt` timestamp. -/
def addItem (s : CartStore) (userId : String) (productId : Option String)
    (quantity : Option ℚ) (newId : String) (now : ℕ) : Except ApiErr CartStore :=
  let q := quantity.getD 1
  if strFalsy productId || decide (q < 1) then
    .error ⟨400, "Product ID and quantity (min 1) are required"⟩
  else
    let pid := productId.getD ""
    let cart := (storeGet s userId).getD emptyCart
    let items :=
      if cart.items.any (fun it => it.productId == pid) then
        bumpFirst cart.items pid q
      else
        cart.items ++ [⟨newId, pid, .num q, now⟩]
    .ok (storeSet s userId ⟨items, cart.total, sumQuantities items⟩)

/-- The body's `quantity` as the JavaScript value the handler sees: the
number itself, or `undefined` when the field is absent. -/
def toJsVal : Option ℚ → JsVal
  | some q => .num q
  | none => .undefined

/-- `cart.items[itemIndex].quantity = quantity` on the first item whose `id`
matches. -/
def setQtyFirst : List CartItem → String → JsVal → List CartItem
  | [], _, _ => []
  | it :: rest, itemId, v =>
    if it.id == itemId then { it with quantity := v } :: rest
    else it :: setQtyFirst rest itemId v

/-- PUT `/:userId/items/:itemId`: the guard is the JavaScript comparison
`quantity < 1`, which is `false` when the body omits `quantity`
(`undefined < 1` is `false`); the stored quantity is then whatever the body
carried, and `itemCount` is recomputed. -/
def updateItem (s : CartStore) (userId itemId : String) (quantity : Option ℚ) :
    Except ApiErr CartStore :=
  if jsLtOne (toJsVal quantity) then
    .error ⟨400, "Quantity must be at least 1"⟩
  else
    match storeGet s userId with
    | none => .error ⟨404, "Cart not found"⟩
    | some cart =>
      if cart.items.any (fun it => it.id == itemId) then
        let items := setQtyFirst cart.items itemId (toJsVal quantity)
        .ok (storeSet s userId ⟨items, cart.total, sumQuantities items⟩)
      else .error ⟨404, "Item not found in cart"⟩

/-- `cart.items.splice(itemIndex, 1)`: drop the first item whose `id`
matches. -/
def removeFirst : List CartItem → String → List CartItem
  | [], _ => []
  | it :: rest, itemId =>
    if it.id == itemId then rest else it :: removeFirst rest itemId

/-- DELETE `/:userId/items/:itemId`: remove an item, recompute `itemCount`. -/
def removeItem (s : CartStore) (userId itemId : String) : Except ApiErr CartStore :=
  match storeGet s userId with
  | none => .error ⟨404, "Cart not found"⟩
  | some cart =>
    if cart.items.any (fun it => it.id == itemId) then
      let items := removeFirst cart.items itemId
      .ok (storeSet s userId ⟨items, cart.total, sumQuantities items⟩)
    else .error ⟨404, "Item not found in cart"⟩

/-- DELETE `/:userId`: clear the entire cart; always succeeds. -/
def clearCart (s : CartStore) (userId : String) : CartStore :=
  storeDelete s userId

/-- The payload of GET `/:userId/summary`. -/
structure CartSummary where
  itemCount : JsVal
  total : ℚ
  deriving DecidableEq

/-- GET `/:userId/summary`: the response object literal writes the key
`itemCount` twice — first `cart.itemCount`, then `cart.items.length` — and in
JavaScript the later duplicate key wins, so the reported `itemCount` is the
number of line items. -/
def cartSummary (s : CartStore) (userId : String) : CartSummary :=
  let cart := (storeGet s userId).getD emptyCart
  ⟨.num (cart.items.length : ℚ), cart.total⟩

/-- One client-visible cart mutation, carrying all request data including
the generated uuid and the timestamp. -/
inductive CartOp where
  | add (userId : String) (productId : Option String) (quantity : Option ℚ)
        (newId : String) (now : ℕ)
  | update (userId itemId : String) (quantity : Option ℚ)
  | remove (userId itemId : String)
  | clear (userId : String)

/-- Apply one operation to the store; an error response mutates nothing. -/
def applyOp (s : CartStore) : CartOp → CartStore
  | .add u pid q id t =>
    match addItem s u pid q id t with
    | .ok s' => s'
    | .error _ => s
  | .update u i q =>
    match updateItem s u i q with
    | .ok s' => s'
    | .error _ => s
  | .remove u i =>
    match removeItem s u i with
    | .ok s' => s'
    | .error _ => s
  | .clear u => clearCart s u

/-- Run a finite sequence of cart mutations. -/
def applyOps (s : CartStore) (ops : List CartOp) : CartStore :=
  ops.foldl applyOp s

/-- An order line item: the checkout payload's
`{ id, productId, name, price, quantity }`; the `id` overwritten by the
create handler's `uuidv4()` is carried in the `id` field. -/
structure OrderItem where
  id : String
  productId : String
  name : String
  price : ℚ
  quantity : ℚ
  deriving DecidableEq

/-- The checkout form's shipping address object. -/
structure Address where
  street : String
  city : String
  state : String
  zipCode : String
  country : String
  deriving DecidableEq

/-- An order record as built by POST `/` of the orders router. -/
structure Order where
  id : String
  userId : String
  items : List OrderItem
  shippingAddress : Address
  paymentMethod : String
  subtotal : ℚ
  tax : ℚ
  shipping : ℚ
  total : ℚ
  status : String
  createdAt : ℕ
  updatedAt : ℕ
  estimatedDelivery : ℕ
  cancellationReason : Option String
  deriving DecidableEq

/-- `items.reduce((sum, item) => sum + (item.price * item.quantity), 0)` —
the order's subtotal (named `total` in the handler). -/
def orderSubtotal (items : List OrderItem) : ℚ :=
  items.foldl (fun sum it => sum + it.price * it.quantity) 0

/-- `const tax = total * 0.08` — 8% tax, with no rounding. -/
def orderTax (subtotal : ℚ) : ℚ := subtotal * (8 / 100)

/-- `const shipping = total > 50 ? 0 : 5.99` — free shipping over $50. -/
def orderShipping (subtotal : ℚ) : ℚ := if 50 < subtotal then 0 else 599 / 100

/-- `const grandTotal = total + tax + shipping`. -/
def orderGrandTotal (items : List OrderItem) : ℚ :=
  orderSubtotal items + orderTax (orderSubtotal items) + orderShipping (orderSubtotal items)

/-- POST `/`: create an order.  `userId` is falsy only when empty; `items`
and `shippingAddress` are falsy only when absent (an array and an object are
truthy even when empty); `freshIds` supplies the `uuidv4()` values for the
order items and `newId` the order's own id; `now` is the request time in
milliseconds, with `estimatedDelivery` 7 days later. -/
def createOrder (userId : String) (items : Option (List OrderItem))
    (shippingAddress : Option Address) (paymentMethod : Option String)
    (newId : String) (freshIds : ℕ → String) (now : ℕ) : Except ApiErr Order :=
  if userId == "" || items.isNone || shippingAddress.isNone then
    .error ⟨400, "User ID, items, and shipping address are required"⟩
  else
    let its := items.getD []
    if its.length == 0 then
      .error ⟨400, "Items must be a non-empty array"⟩
    else
      .ok
        { id := newId
          userId := userId
          items := its.mapIdx (fun i it => { it with id := freshIds i })
          shippingAddress := shippingAddress.getD ⟨"", "", "", "", ""⟩
          paymentMethod := jsOrStr paymentMethod "credit_card"
          subtotal := orderSubtotal its
          tax := orderTax (orderSubtotal its)
          shipping := orderShipping (orderSubtotal its)
          total := orderGrandTotal its
          status := "pending"
          createdAt := now
          updatedAt := now
          estimatedDelivery := now + 7 * 24 * 60 * 60 * 1000
          cancellationReason := none }

/-- The module-level `orders = new Map()`: userId to that user's order list. -/
abbrev OrderStore := List (String × List Order)

/-- `userOrders.find(o => o.id === orderId)` — first order with the id. -/
def findInList : List Order → String → Option Order
  | [], _ => none
  | o :: rest, orderId => if o.id == orderId then some o else findInList rest orderId

/-- The scan `for (const [userId, userOrders] of orders.entries())` breaking
at the first user list containing the order id. -/
def findOrder : OrderStore → String → Option Order
  | [], _ => none
  | (_, os) :: rest, orderId =>
    match findInList os orderId with
    | some o => some o
    | none => findOrder rest orderId

/-- In-place mutation of the found order, modelled as replacing the first
order with the given id in the first user list that contains it. -/
def replaceInList : List Order → String → (Order → Order) → List Order
  | [], _, _ => []
  | o :: rest, orderId, f =>
    if o.id == orderId then f o :: rest else o :: replaceInList rest orderId f

/-- Apply `f` to the order the scan in the handlers finds. -/
def replaceOrder : OrderStore → String → (Order → Order) → OrderStore
  | [], _, _ => []
  | (u, os) :: rest, orderId, f =>
    if (findInList os orderId).isSome then (u, replaceInList os orderId f) :: rest
    else (u, os) :: replaceOrder rest orderId f

/-- The `validStatuses` list of the status handler. -/
def validStatuses : List String :=
  ["pending", "confirmed", "processing", "shipped", "delivered", "cancelled"]

/-- The mutation the status handler performs on the found order: set the
status and `updatedAt` unconditionally, and recompute `estimatedDelivery` to
3 days out when the new status is `shipped`. -/
def applyStatus (st : String) (now : ℕ) (o : Order) : Order :=
  let o' := { o with status := st, updatedAt := now }
  if st == "shipped" then { o' with estimatedDelivery := now + 3 * 24 * 60 * 60 * 1000 }
  else o'

/-- PATCH `/:orderId/status`: reject a falsy or unrecognized status, 404 a
missing order, otherwise overwrite the status — the handler never inspects
the current status, so any valid value is accepted from any state. -/
def updateStatus (s : OrderStore) (orderId : String) (status : Option String)
    (now : ℕ) : Except ApiErr OrderStore :=
  if strFalsy status then .error ⟨400, "Status is required"⟩
  else
    let st := status.getD ""
    if !(validStatuses.contains st) then
      .error ⟨400, "Invalid status. Must be one of: " ++ String.intercalate ", " validStatuses⟩
    else
      match findOrder s orderId with
      | none => .error ⟨404, "Order not found"⟩
      | some _ => .ok (replaceOrder s orderId (applyStatus st now))

/-- The mutation the cancel handler performs on the found order:
`cancellationReason = reason || 'Cancelled by user'`. -/
def applyCancel (reason : Option String) (now : ℕ) (o : Order) : Order :=
  { o with status := "cancelled", updatedAt := now,
           cancellationReason := some (jsOrStr reason "Cancelled by user") }

/-- PATCH `/:orderId/cancel`: 404 a missing order, reject when the current
status is `shipped` or `delivered`, otherwise cancel. -/
def cancelOrder (s : OrderStore) (orderId : String) (reason : Option String)
    (now : ℕ) : Except ApiErr OrderStore :=
  match findOrder s orderId with
  | none => .error ⟨404, "Order not found"⟩
  | some o =>
    if o.status == "shipped" || o.status == "delivered" then
      .error ⟨400, "Cannot cancel order that has already been shipped or delivered"⟩
    else
      .ok (replaceOrder s orderId (applyCancel reason now))

/-- The store a handler leaves behind: an error response mutates nothing. -/
def afterOrderOp (s : OrderStore) (r : Except ApiErr OrderStore) : OrderStore :=
  match r with
  | .ok s' => s'
  | .error _ => s

/-- The HTTP status code of an error response, `none` on success. -/
def errCode : Except ApiErr OrderStore → Option ℕ
  | .error e => some e.code
  | .ok _ => none

/-- Position of a status in the forward lifecycle
pending, confirmed, processing, shipped, delivered (cancelled and unknown
strings sit outside the chain). -/
def statusRank : String → ℕ
  | "pending" => 0
  | "confirmed" => 1
  | "processing" => 2
  | "shipped" => 3
  | "delivered" => 4
  | _ => 5

/-- A product as the cart page sees one: only name and price matter to the
checkout calculator. -/
structure FEProduct where
  name : String
  price : ℚ
  deriving DecidableEq

/-- A cart line item as the cart page holds it. -/
structure FECartItem where
  id : String
  productId : String
  quantity : ℚ
  deriving DecidableEq

/-- `CartPage.calculateSubtotal`:
`items.reduce((total, item) => total + (product?.price || 0) * item.quantity, 0)`
where `product` is the fetched `products[item.productId]`; a productId absent
from the map contributes `0 * quantity`.  (`price || 0` agrees with
`getD 0` because `0` is the only falsy price.) -/
def calculateSubtotal (products : String → Option FEProduct)
    (items : List FECartItem) : ℚ :=
  items.foldl
    (fun total it => total + ((products it.productId).map (·.price)).getD 0 * it.quantity) 0

/-- `CartPage.calculateTax`: 8% of the subtotal. -/
def calculateTax (products : String → Option FEProduct) (items : List FECartItem) : ℚ :=
  calculateSubtotal products items * (8 / 100)

/-- `CartPage.calculateShipping`: free over $50, else 5.99. -/
def calculateShipping (products : String → Option FEProduct) (items : List FECartItem) : ℚ :=
  if 50 < calculateSubtotal products items then 0 else 599 / 100

/-- `CartPage.calculateTotal`. -/
def calculateTotal (products : String → Option FEProduct) (items : List FECartItem) : ℚ :=
  calculateSubtotal products items + calculateTax products items
    + calculateShipping products items

/-- Modelled from the spec: `round(x, 2)`, rounding to two decimal places,
which the spec's tax formula `round(S × 0.08, 2)` uses but the source does
not. -/
def round2 (x : ℚ) : ℚ := (round (x * 100) : ℤ) / 100

/-! ### Lemmas about the cart store map -/

theorem storeGet_set_self (s : CartStore) (u : String) (c : Cart) :
    storeGet (storeSet s u c) u = some c := by
  induction s with
  | nil => simp [storeGet, storeSet]
  | cons hd tl ih =>
    obtain ⟨k, v⟩ := hd
    by_cases h : k = u
    · simp [storeGet, storeSet, h]
    · simp [storeGet, storeSet, h, ih]

theorem storeGet_set_other (s : CartStore) (u u' : String) (c : Cart)
    (h : u' ≠ u) : storeGet (storeSet s u c) u' = storeGet s u' := by
  induction s with
  | nil => simp [storeGet, storeSet, Ne.symm h]
  | cons hd tl ih =>
    obtain ⟨k, v⟩ := hd
    by_cases hk : k = u
    · subst hk
      simp [storeGet, storeSet, Ne.symm h]
    · by_cases hk' : k = u'
      · simp [storeGet, storeSet, hk, hk', h]
      · simp [storeGet, storeSet, hk, hk', ih]

theorem storeGet_delete_self (s : CartStore) (u : String) :
    storeGet (storeDelete s u) u = none := by
  induction s with
  | nil => rfl
  | cons hd tl ih =>
    obtain ⟨k, v⟩ := hd
    by_cases h : k = u
    · simp [storeDelete, h, ih]
    · simp [storeDelete, storeGet, h, ih]

theorem storeGet_delete_other (s : CartStore) (u u' : String) (h : u' ≠ u) :
    storeGet (storeDelete s u) u' = storeGet s u' := by
  induction s with
  | nil => rfl
  | cons hd tl ih =>
    obtain ⟨k, v⟩ := hd
    by_cases hk : k = u
    · subst hk
      simp [storeDelete, storeGet, Ne.symm h, ih]
    · simp [storeDelete, storeGet, hk, ih]

/-! ### Lemmas about quantity sums -/

theorem jsAdd_undef_right (v : JsVal) : jsAdd v .undefined = .nan := by
  cases v <;> rfl

theorem jsAdd_nan_right (v : JsVal) : jsAdd v .nan = .nan := by
  cases v <;> rfl

theorem jsAdd_nan_left (v : JsVal) : jsAdd .nan v = .nan := by
  cases v <;> rfl

theorem sumFrom_nan (l : List CartItem) :
    l.foldl (fun s it => jsAdd s it.quantity) .nan = .nan := by
  induction l with
  | nil => rfl
  | cons hd tl ih => simpa [jsAdd_nan_left] using ih

theorem sumFrom_poison (l : List CartItem) :
    ∀ a, (∃ it ∈ l, it.quantity = .undefined ∨ it.quantity = .nan) →
      l.foldl (fun s it => jsAdd s it.quantity) a = .nan := by
  induction l with
  | nil => intro a h; simp at h
  | cons hd tl ih =>
    intro a h
    obtain ⟨it, hmem, hq⟩ := h
    rcases List.mem_cons.mp hmem with rfl | hmem'
    · have hstep : jsAdd a it.quantity = .nan := by
        rcases hq with h' | h' <;> rw [h']
        · exact jsAdd_undef_right a
        · exact jsAdd_nan_right a
      simpa [hstep] using sumFrom_nan tl
    · exact ih _ ⟨it, hmem', hq⟩

theorem sumFrom_num (l : List CartItem) :
    ∀ a : ℚ, (∀ it ∈ l, ∃ q, it.quantity = .num q) →
      l.foldl (fun s it => jsAdd s it.quantity) (.num a) =
        .num (a + (l.map (fun it => qnum it.quantity)).sum) := by
  induction l with
  | nil => intro a _; simp
  | cons hd tl ih =>
    intro a h
    obtain ⟨q, hq⟩ := h hd (by simp)
    have hrec := ih (a + q) (fun it hit => h it (by simp [hit]))
    have hstep : jsAdd (JsVal.num a) hd.quantity = JsVal.num (a + q) := by
      rw [hq]; rfl
    calc List.foldl (fun s it => jsAdd s it.quantity) (JsVal.num a) (hd :: tl)
        = List.foldl (fun s it => jsAdd s it.quantity) (JsVal.num (a + q)) tl := by
          rw [List.foldl_cons, hstep]
      _ = JsVal.num (a + q + (tl.map (fun it => qnum it.quantity)).sum) := hrec
      _ = JsVal.num (a + ((hd :: tl).map (fun it => qnum it.quantity)).sum) := by
          rw [List.map_cons, List.sum_cons, hq]
          simp [qnum, add_assoc]

theorem length_le_sum_of_one_le (l : List ℚ) (h : ∀ x ∈ l, 1 ≤ x) :
    (l.length : ℚ) ≤ l.sum := by
  induction l with
  | nil => simp
  | cons hd tl ih =>
    have h1 := h hd (by simp)
    have h2 := ih (fun x hx => h x (by simp [hx]))
    simp only [List.length_cons, List.sum_cons]
    push_cast
    linarith

theorem length_lt_sum_of_one_lt (l : List ℚ) (h : ∀ x ∈ l, 1 ≤ x)
    (hx : ∃ x ∈ l, 1 < x) : (l.length : ℚ) < l.sum := by
  induction l with
  | nil => simp at hx
  | cons hd tl ih =>
    obtain ⟨x, hmem, h1x⟩ := hx
    simp only [List.length_cons, List.sum_cons]
    push_cast
    rcases List.mem_cons.mp hmem with rfl | hmem'
    · have := length_le_sum_of_one_le tl (fun y hy => h y (by simp [hy]))
      linarith
    · have h1 := h hd (by simp)
      have := ih (fun y hy => h y (by simp [hy])) ⟨x, hmem', h1x⟩
      linarith

/-! ### Lemmas about the list helpers of the cart handlers -/

/-- Well-formed stored quantities: every numeric quantity a reachable cart
holds is at least 1 (`undefined` and `NaN` can also occur, via an update
whose body omits `quantity`). -/
def QtyWF : JsVal → Prop
  | .num q => 1 ≤ q
  | _ => True

theorem qtyWF_num {q : ℚ} (h : 1 ≤ q) : QtyWF (.num q) := h

theorem qtyWF_jsAdd (v : JsVal) (q : ℚ) (hv : QtyWF v) (hq : 1 ≤ q) :
    QtyWF (jsAdd v (.num q)) := by
  cases v with
  | num a =>
    have : (1 : ℚ) ≤ a := hv
    show (1 : ℚ) ≤ a + q
    linarith
  | undefined => trivial
  | nan => trivial

theorem bumpFirst_map_productId (l : List CartItem) (pid : String) (q : ℚ) :
    (bumpFirst l pid q).map (·.productId) = l.map (·.productId) := by
  induction l with
  | nil => rfl
  | cons hd tl ih =>
    by_cases h : hd.productId = pid
    · simp [bumpFirst, h]
    · simp [bumpFirst, h, ih]

theorem bumpFirst_qtyWF (l : List CartItem) (pid : String) (q : ℚ)
    (hl : ∀ it ∈ l, QtyWF it.quantity) (hq : 1 ≤ q) :
    ∀ it ∈ bumpFirst l pid q, QtyWF it.quantity := by
  induction l with
  | nil => simp [bumpFirst]
  | cons hd tl ih =>
    by_cases h : hd.productId = pid
    · simp only [bumpFirst, h, beq_self_eq_true, if_true]
      intro it hit
      rcases List.mem_cons.mp hit with rfl | hmem
      · exact qtyWF_jsAdd _ _ (hl hd (by simp)) hq
      · exact hl it (by simp [hmem])
    · simp only [bumpFirst, beq_iff_eq, h, if_false]
      intro it hit
      rcases List.mem_cons.mp hit with rfl | hmem
      · exact hl it (by simp)
      · exact ih (fun x hx => hl x (by simp [hx])) it hmem

theorem setQtyFirst_map_productId (l : List CartItem) (itemId : String) (v : JsVal) :
    (setQtyFirst l itemId v).map (·.productId) = l.map (·.productId) := by
  induction l with
  | nil => rfl
  | cons hd tl ih =>
    by_cases h : hd.id = itemId
    · simp [setQtyFirst, h]
    · simp [setQtyFirst, h, ih]

theorem setQtyFirst_qtyWF (l : List CartItem) (itemId : String) (v : JsVal)
    (hl : ∀ it ∈ l, QtyWF it.quantity) (hv : QtyWF v) :
    ∀ it ∈ setQtyFirst l itemId v, QtyWF it.quantity := by
  induction l with
  | nil => simp [setQtyFirst]
  | cons hd tl ih =>
    by_cases h : hd.id = itemId
    · simp only [setQtyFirst, h, beq_self_eq_true, if_true]
      intro it hit
      rcases List.mem_cons.mp hit with rfl | hmem
      · exact hv
      · exact hl it (by simp [hmem])
    · simp only [setQtyFirst, beq_iff_eq, h, if_false]
      intro it hit
      rcases List.mem_cons.mp hit with rfl | hmem
      · exact hl it (by simp)
      · exact ih (fun x hx => hl x (by simp [hx])) it hmem

theorem setQtyFirst_mem (l : List CartItem) (itemId : String) (v : JsVal)
    (h : ∃ it ∈ l, it.id = itemId) :
    ∃ it ∈ setQtyFirst l itemId v, it.id = itemId ∧ it.quantity = v := by
  induction l with
  | nil => simp at h
  | cons hd tl ih =>
    by_cases hh : hd.id = itemId
    · refine ⟨{ hd with quantity := v }, ?_, hh, rfl⟩
      simp [setQtyFirst, hh]
    · obtain ⟨it, hmem, hid⟩ := h
      rcases List.mem_cons.mp hmem with rfl | hmem'
      · exact absurd hid hh
      · obtain ⟨it', hmem'', hprop⟩ := ih ⟨it, hmem', hid⟩
        exact ⟨it', by simp [setQtyFirst, hh, hmem''], hprop⟩

theorem removeFirst_sublist (l : List CartItem) (itemId : String) :
    List.Sublist (removeFirst l itemId) l := by
  induction l with
  | nil => simp [removeFirst]
  | cons hd tl ih =>
    by_cases h : hd.id = itemId
    · simp only [removeFirst, h, beq_self_eq_true, if_true]
      exact List.sublist_cons_self hd tl
    · simp only [removeFirst, beq_iff_eq, h, if_false]
      exact ih.cons₂ hd

/-! ### The reachable-cart invariant and its preservation -/

/-- Invariants every cart reachable through the handlers satisfies:
`itemCount` is the recomputed sum of quantities, `total` is never touched
after its initial 0, product ids are unique across line items, and stored
quantities are well formed. -/
structure CartWF (c : Cart) : Prop where
  count_eq : c.itemCount = sumQuantities c.items
  total_eq : c.total = 0
  nodupPid : (c.items.map (·.productId)).Nodup
  qty : ∀ it ∈ c.items, QtyWF it.quantity

theorem emptyCart_wf : CartWF emptyCart :=
  ⟨rfl, rfl, by simp [emptyCart], by simp [emptyCart]⟩

/-- Every cart the store holds is well formed. -/
def StoreWF (s : CartStore) : Prop :=
  ∀ u c, storeGet s u = some c → CartWF c

theorem storeWF_nil : StoreWF [] := by
  intro u c h
  simp [storeGet] at h

theorem storeWF_set (s : CartStore) (u : String) (c : Cart)
    (hs : StoreWF s) (hc : CartWF c) : StoreWF (storeSet s u c) := by
  intro u' c' hget
  by_cases h : u' = u
  · subst h
    rw [storeGet_set_self] at hget
    exact Option.some.inj hget ▸ hc
  · rw [storeGet_set_other s u u' c h] at hget
    exact hs u' c' hget

theorem getCart_wf (s : CartStore) (u : String) (hs : StoreWF s) :
    CartWF ((storeGet s u).getD emptyCart) := by
  cases h : storeGet s u with
  | none => exact emptyCart_wf
  | some c => exact hs u c h

theorem addItem_wf (s : CartStore) (u : String) (pid : Option String)
    (q : Option ℚ) (id : String) (t : ℕ) (hs : StoreWF s) :
    ∀ s', addItem s u pid q id t = .ok s' → StoreWF s' := by
  intro s' hok
  unfold addItem at hok
  by_cases hguard : (strFalsy pid || decide (q.getD 1 < 1)) = true
  · simp [hguard] at hok
  · simp only [hguard, Bool.false_eq_true, if_false, Except.ok.injEq] at hok
    have hq1 : 1 ≤ q.getD 1 := by
      rcases Bool.or_eq_false_iff.mp (Bool.not_eq_true _ ▸ hguard) with ⟨_, h2⟩
      simpa using of_decide_eq_false h2
    subst hok
    set cart := (storeGet s u).getD emptyCart with hcart
    have hwf : CartWF cart := getCart_wf s u hs
    apply storeWF_set s u _ hs
    by_cases hex : cart.items.any (fun it => it.productId == pid.getD "") = true
    · refine ⟨rfl, hwf.total_eq, ?_, ?_⟩
      · simp only [hex, if_true]
        rw [bumpFirst_map_productId]
        exact hwf.nodupPid
      · simp only [hex, if_true]
        exact bumpFirst_qtyWF _ _ _ hwf.qty hq1
    · have hnotin : (pid.getD "") ∉ cart.items.map (·.productId) := by
        intro hmem
        obtain ⟨it, hit, hpid⟩ := List.mem_map.mp hmem
        exact hex (List.any_eq_true.mpr ⟨it, hit, by simp [hpid]⟩)
      refine ⟨rfl, hwf.total_eq, ?_, ?_⟩
      · simp only [hex, Bool.false_eq_true, if_false]
        rw [List.map_append]
        simp only [List.map_cons, List.map_nil]
        rw [List.nodup_append]
        exact ⟨hwf.nodupPid, List.nodup_singleton _, by simpa using hnotin⟩
      · simp only [hex, Bool.false_eq_true, if_false]
        intro it hit
        rcases List.mem_append.mp hit with hmem | hmem
        · exact hwf.qty it hmem
        · simp at hmem
          subst hmem
          exact qtyWF_num hq1

theorem updateItem_wf (s : CartStore) (u itemId : String) (q : Option ℚ)
    (hs : StoreWF s) :
    ∀ s', updateItem s u itemId q = .ok s' → StoreWF s' := by
  intro s' hok
  unfold updateItem at hok
  by_cases hguard : jsLtOne (toJsVal q) = true
  · simp [hguard] at hok
  · simp only [hguard, Bool.false_eq_true, if_false] at hok
    cases hget : storeGet s u with
    | none => rw [hget] at hok; simp at hok
    | some cart =>
      rw [hget] at hok
      by_cases hex : cart.items.any (fun it => it.id == itemId) = true
      · simp only [hex, if_true, Except.ok.injEq] at hok
        subst hok
        have hwf : CartWF cart := hs u cart hget
        have hv : QtyWF (toJsVal q) := by
          cases q with
          | none => trivial
          | some x =>
            have : ¬(x < 1) := by simpa [jsLtOne, toJsVal] using hguard
            exact qtyWF_num (not_lt.mp this)
        apply storeWF_set s u _ hs
        refine ⟨rfl, hwf.total_eq, ?_, ?_⟩
        · rw [setQtyFirst_map_productId]
          exact hwf.nodupPid
        · exact setQtyFirst_qtyWF _ _ _ hwf.qty hv
      · simp [hex] at hok

theorem removeItem_wf (s : CartStore) (u itemId : String) (hs : StoreWF s) :
    ∀ s', removeItem s u itemId = .ok s' → StoreWF s' := by
  intro s' hok
  unfold removeItem at hok
  cases hget : storeGet s u with
  | none => rw [hget] at hok; simp at hok
  | some cart =>
    rw [hget] at hok
    by_cases hex : cart.items.any (fun it => it.id == itemId) = true
    · simp only [hex, if_true, Except.ok.injEq] at hok
      subst hok
      have hwf : CartWF cart := hs u cart hget
      have hsub := removeFirst_sublist cart.items itemId
      apply storeWF_set s u _ hs
      refine ⟨rfl, hwf.total_eq, ?_, ?_⟩
      · exact hwf.nodupPid.sublist (hsub.map (·.productId))
      · intro it hit
        exact hwf.qty it (hsub.subset hit)
    · simp [hex] at hok

theorem clearCart_wf (s : CartStore) (u : String) (hs : StoreWF s) :
    StoreWF (clearCart s u) := by
  intro u' c hget
  by_cases h : u' = u
  · subst h
    rw [clearCart, storeGet_delete_self] at hget
    cases hget
  · rw [clearCart, storeGet_delete_other s u u' h] at hget
    exact hs u' c hget

theorem applyOp_wf (s : CartStore) (op : CartOp) (hs : StoreWF s) :
    StoreWF (applyOp s op) := by
  cases op with
  | add u pid q id t =>
    cases hr : addItem s u pid q id t with
    | ok s' => simpa [applyOp, hr] using addItem_wf s u pid q id t hs s' hr
    | error e => simpa [applyOp, hr] using hs
  | update u i q =>
    cases hr : updateItem s u i q with
    | ok s' => simpa [applyOp, hr] using updateItem_wf s u i q hs s' hr
    | error e => simpa [applyOp, hr] using hs
  | remove u i =>
    cases hr : removeItem s u i with
    | ok s' => simpa [applyOp, hr] using removeItem_wf s u i hs s' hr
    | error e => simpa [applyOp, hr] using hs
  | clear u => exact clearCart_wf s u hs

theorem applyOps_wf (s : CartStore) (ops : List CartOp) (hs : StoreWF s) :
    StoreWF (applyOps s ops) := by
  induction ops generalizing s with
  | nil => exact hs
  | cons op rest ih => exact ih (applyOp s op) (applyOp_wf s op hs)

/-- The cart an update request produces: the body's quantity stored on the
first matching item, `itemCount` recomputed. -/
def cartAfterUpdate (c : Cart) (itemId : String) (q : Option ℚ) : Cart :=
  ⟨setQtyFirst c.items itemId (toJsVal q), c.total,
    sumQuantities (setQtyFirst c.items itemId (toJsVal q))⟩

/-! ### Claim theorems over the cart store -/

/-- C3: adding the same valid (productId, quantity ≥ 1) pair twice to an
empty cart yields exactly one line item carrying the summed quantity, and —
over all operation sequences from the empty store — every reachable cart has
at most one line item per distinct productId. -/
theorem cart_merges_duplicate_products :
    (∀ (u p id1 id2 : String) (t1 t2 : ℕ) (q1 q2 : ℚ),
        p ≠ "" → 1 ≤ q1 → 1 ≤ q2 →
        applyOps [] [.add u (some p) (some q1) id1 t1,
                     .add u (some p) (some q2) id2 t2] =
          [(u, ⟨[⟨id1, p, .num (q1 + q2), t1⟩], 0, .num (q1 + q2)⟩)]) ∧
    (∀ (ops : List CartOp) (u : String) (c : Cart),
        storeGet (applyOps [] ops) u = some c →
        (c.items.map (·.productId)).Nodup) := by
  constructor
  · intro u p id1 id2 t1 t2 q1 q2 hp hq1 hq2
    have hp' : (p == "") = false := beq_eq_false_iff_ne.mpr hp
    have hq1' : decide (q1 < 1) = false := decide_eq_false (not_lt.mpr hq1)
    have hq2' : decide (q2 < 1) = false := decide_eq_false (not_lt.mpr hq2)
    simp [applyOps, applyOp, addItem, strFalsy, hp', hq1', hq2', storeGet,
      storeSet, bumpFirst, sumQuantities, jsAdd, emptyCart]
  · intro ops u c h
    exact (applyOps_wf [] ops storeWF_nil u c h).nodupPid

theorem cart_merges_duplicate_products_witness :
    applyOps [] [.add "u" (some "1") (some 2) "a" 0,
                 .add "u" (some "1") (some 3) "b" 1] =
      [("u", ⟨[⟨"a", "1", .num 5, 0⟩], 0, .num 5⟩)] := by
  have h := cart_merges_duplicate_products.1 "u" "1" "a" "b" 0 1 2 3
    (by decide) (by norm_num) (by norm_num)
  norm_num at h
  exact h

/-- C4: after any sequence of add/update/remove/clear operations from the
empty store, every stored cart's `itemCount` equals the sum of the
quantities of its line items. -/
theorem itemCount_eq_sum_after_ops (ops : List CartOp) (u : String) (c : Cart)
    (h : storeGet (applyOps [] ops) u = some c) :
    c.itemCount = sumQuantities c.items :=
  (applyOps_wf [] ops storeWF_nil u c h).count_eq

theorem itemCount_eq_sum_after_ops_witness :
    storeGet (applyOps [] [.add "u" (some "1") (some 2) "a" 0]) "u" =
      some ⟨[⟨"a", "1", .num 2, 0⟩], 0, .num 2⟩ ∧
    (Cart.mk [⟨"a", "1", .num 2, 0⟩] 0 (.num 2)).itemCount =
      sumQuantities [⟨"a", "1", .num 2, 0⟩] := by
  have hget : storeGet (applyOps [] [.add "u" (some "1") (some 2) "a" 0]) "u" =
      some ⟨[⟨"a", "1", .num 2, 0⟩], 0, .num 2⟩ := by
    norm_num +decide [applyOps, applyOp, addItem, strFalsy, storeGet, storeSet,
      sumQuantities, jsAdd, emptyCart]
  exact ⟨hget, itemCount_eq_sum_after_ops _ "u" _ hget⟩

/-- C8: the `total` field of the cart returned by the get-cart handler is 0
after every sequence of cart mutations — no handler ever recalculates it. -/
theorem getCart_total_always_zero (ops : List CartOp) (u : String) :
    (getCart (applyOps [] ops) u).total = 0 := by
  have hs := applyOps_wf [] ops storeWF_nil
  unfold getCart
  cases h : storeGet (applyOps [] ops) u with
  | none => rfl
  | some c => exact (hs u c h).total_eq

/-- C9: the summary handler reports `itemCount` as the number of line items
(the later duplicate key in the response literal wins), so as soon as a
reachable cart holds an item with quantity above 1 the summary's `itemCount`
differs from the cart's stored `itemCount`. -/
theorem cartSummary_itemCount_is_length (ops : List CartOp) (u : String)
    (c : Cart) (h : storeGet (applyOps [] ops) u = some c)
    (hq : ∃ it ∈ c.items, ∃ q, it.quantity = JsVal.num q ∧ 1 < q) :
    (cartSummary (applyOps [] ops) u).itemCount = .num (c.items.length : ℚ) ∧
    (cartSummary (applyOps [] ops) u).itemCount ≠ c.itemCount := by
  have hwf := applyOps_wf [] ops storeWF_nil u c h
  have hsum : (cartSummary (applyOps [] ops) u).itemCount =
      .num (c.items.length : ℚ) := by
    simp [cartSummary, h]
  refine ⟨hsum, ?_⟩
  rw [hsum, hwf.count_eq]
  by_cases hpois : ∃ it ∈ c.items, it.quantity = JsVal.undefined ∨ it.quantity = JsVal.nan
  · rw [sumQuantities, sumFrom_poison c.items _ hpois]
    simp
  · push_neg at hpois
    have hnum : ∀ it ∈ c.items, ∃ q, it.quantity = JsVal.num q := by
      intro it hit
      cases hv : it.quantity with
      | num q => exact ⟨q, rfl⟩
      | undefined => exact absurd hv (hpois it hit).1
      | nan => exact absurd hv (hpois it hit).2
    have h1 : ∀ x ∈ c.items.map (fun it => qnum it.quantity), 1 ≤ x := by
      intro x hx
      obtain ⟨it, hit, rfl⟩ := List.mem_map.mp hx
      obtain ⟨q, hq'⟩ := hnum it hit
      have hwfq := hwf.qty it hit
      rw [hq'] at hwfq ⊢
      exact hwfq
    have h2 : ∃ x ∈ c.items.map (fun it => qnum it.quantity), 1 < x := by
      obtain ⟨it, hit, q, hq', hq1⟩ := hq
      refine ⟨qnum it.quantity, List.mem_map_of_mem _ hit, ?_⟩
      rw [hq']
      exact hq1
    have hlt := length_lt_sum_of_one_lt _ h1 h2
    rw [List.length_map] at hlt
    rw [sumQuantities, sumFrom_num c.items 0 hnum]
    simp only [ne_eq, JsVal.num.injEq, zero_add]
    exact ne_of_lt hlt

theorem cartSummary_itemCount_is_length_witness :
    storeGet (applyOps [] [.add "u" (some "1") (some 2) "a" 0]) "u" =
      some ⟨[⟨"a", "1", .num 2, 0⟩], 0, .num 2⟩ ∧
    (cartSummary (applyOps [] [.add "u" (some "1") (some 2) "a" 0]) "u").itemCount =
      .num ((1 : ℕ) : ℚ) ∧
    (cartSummary (applyOps [] [.add "u" (some "1") (some 2) "a" 0]) "u").itemCount ≠
      (Cart.mk [⟨"a", "1", .num 2, 0⟩] 0 (.num 2)).itemCount := by
  have hget : storeGet (applyOps [] [.add "u" (some "1") (some 2) "a" 0]) "u" =
      some ⟨[⟨"a", "1", .num 2, 0⟩], 0, .num 2⟩ := by
    norm_num +decide [applyOps, applyOp, addItem, strFalsy, storeGet, storeSet,
      sumQuantities, jsAdd, emptyCart]
  have h := cartSummary_itemCount_is_length [.add "u" (some "1") (some 2) "a" 0]
    "u" _ hget ⟨⟨"a", "1", .num 2, 0⟩, by simp, 2, rfl, by norm_num⟩
  exact ⟨hget, h.1, h.2⟩

/-- C10: an update request whose body omits `quantity` passes the
`quantity < 1` guard, succeeds, stores `undefined` on the item and turns the
recomputed `itemCount` into `NaN`. -/
theorem updateItem_missing_quantity (s : CartStore) (u itemId : String)
    (c : Cart) (hget : storeGet s u = some c)
    (hex : ∃ it ∈ c.items, it.id = itemId) :
    updateItem s u itemId none =
      .ok (storeSet s u (cartAfterUpdate c itemId none)) ∧
    (cartAfterUpdate c itemId none).itemCount = .nan ∧
    ∃ it ∈ (cartAfterUpdate c itemId none).items,
      it.id = itemId ∧ it.quantity = .undefined := by
  have hany : c.items.any (fun it => it.id == itemId) = true := by
    obtain ⟨it, hit, hid⟩ := hex
    exact List.any_eq_true.mpr ⟨it, hit, by simp [hid]⟩
  have hmem := setQtyFirst_mem c.items itemId (toJsVal none) hex
  refine ⟨?_, ?_, hmem⟩
  · unfold updateItem
    simp [jsLtOne, toJsVal, hget, hany, cartAfterUpdate]
  · obtain ⟨it', hmem', hid', hq'⟩ := hmem
    exact sumFrom_poison _ _ ⟨it', hmem', Or.inl hq'⟩

theorem updateItem_missing_quantity_witness :
    updateItem [("u", ⟨[⟨"i", "p", .num 2, 0⟩], 0, .num 2⟩)] "u" "i" none =
      .ok (storeSet [("u", ⟨[⟨"i", "p", .num 2, 0⟩], 0, .num 2⟩)] "u"
        (cartAfterUpdate ⟨[⟨"i", "p", .num 2, 0⟩], 0, .num 2⟩ "i" none)) ∧
    (cartAfterUpdate ⟨[⟨"i", "p", .num 2, 0⟩], 0, .num 2⟩ "i" none).itemCount = .nan := by
  have h := updateItem_missing_quantity
    [("u", ⟨[⟨"i", "p", .num 2, 0⟩], 0, .num 2⟩)] "u" "i"
    ⟨[⟨"i", "p", .num 2, 0⟩], 0, .num 2⟩
    (by simp [storeGet]) ⟨⟨"i", "p", .num 2, 0⟩, by simp, rfl⟩
  exact ⟨h.1, h.2.1⟩

/-! ### Lemmas about the order store -/

theorem findInList_replace (os : List Order) (orderId : String)
    (f : Order → Order) (hf : ∀ x, (f x).id = x.id) (o : Order)
    (h : findInList os orderId = some o) :
    findInList (replaceInList os orderId f) orderId = some (f o) := by
  induction os with
  | nil => simp [findInList] at h
  | cons hd tl ih =>
    by_cases hh : hd.id = orderId
    · simp only [findInList, hh, beq_self_eq_true, if_true, Option.some.injEq] at h
      subst h
      simp [replaceInList, hh, findInList, hf]
    · simp only [findInList, beq_iff_eq, hh, if_false] at h
      simp [replaceInList, hh, findInList, ih h]

theorem findOrder_replace (s : OrderStore) (orderId : String)
    (f : Order → Order) (hf : ∀ x, (f x).id = x.id) (o : Order)
    (h : findOrder s orderId = some o) :
    findOrder (replaceOrder s orderId f) orderId = some (f o) := by
  induction s with
  | nil => simp [findOrder] at h
  | cons hd tl ih =>
    obtain ⟨u, os⟩ := hd
    cases hfl : findInList os orderId with
    | some o' =>
      rw [findOrder, hfl] at h
      simp only [Option.some.injEq] at h
      subst h
      simp only [replaceOrder, hfl, Option.isSome_some, if_true]
      rw [findOrder, findInList_replace os orderId f hf _ hfl]
    | none =>
      rw [findOrder, hfl] at h
      simp only [replaceOrder, hfl, Option.isSome_none, Bool.false_eq_true, if_false]
      rw [findOrder, hfl]
      exact ih h

theorem applyStatus_id (st : String) (now : ℕ) (x : Order) :
    (applyStatus st now x).id = x.id := by
  by_cases h : st = "shipped" <;> simp [applyStatus, h]

theorem applyCancel_id (r : Option String) (now : ℕ) (x : Order) :
    (applyCancel r now x).id = x.id := rfl

theorem applyStatus_status (st : String) (now : ℕ) (x : Order) :
    (applyStatus st now x).status = st := by
  by_cases h : st = "shipped" <;> simp [applyStatus, h]

/-- A concrete order used in counterexamples and witnesses. -/
def mkOrder (st : String) : Order :=
  ⟨"o1", "u", [], ⟨"", "", "", "", ""⟩, "credit_card", 0, 0, 0, 0, st, 0, 0, 0, none⟩

/-! ### Claim theorems over the order store -/

/-- C2 counterexample: a delivered order is successfully moved back to
pending by the status handler — the claimed forward-only discipline fails. -/
theorem orderStatus_moves_backward :
    updateStatus [("u", [mkOrder "delivered"])] "o1" (some "pending") 5 =
      .ok [("u", [{ mkOrder "delivered" with status := "pending", updatedAt := 5 }])] ∧
    statusRank "pending" < statusRank "delivered" := by
  constructor
  · norm_num +decide [updateStatus, strFalsy, validStatuses, findOrder, findInList,
      replaceOrder, replaceInList, applyStatus, mkOrder]
  · norm_num [statusRank]

/-- C2 amended: the status handler accepts any of the six enum values from
any current state — backward moves and jumps to `cancelled` included — and
only the cancel handler restricts reachability, rejecting exactly the
shipped and delivered states. -/
theorem updateStatus_unrestricted (s : OrderStore) (orderId st : String)
    (now : ℕ) (o : Order) (r : Option String)
    (hfind : findOrder s orderId = some o) :
    (st ∈ validStatuses →
      updateStatus s orderId (some st) now =
        .ok (replaceOrder s orderId (applyStatus st now)) ∧
      findOrder (replaceOrder s orderId (applyStatus st now)) orderId =
        some (applyStatus st now o) ∧
      (applyStatus st now o).status = st) ∧
    ((o.status = "shipped" ∨ o.status = "delivered") →
      cancelOrder s orderId r now =
        .error ⟨400, "Cannot cancel order that has already been shipped or delivered"⟩) ∧
    (o.status ≠ "shipped" → o.status ≠ "delivered" →
      cancelOrder s orderId r now =
        .ok (replaceOrder s orderId (applyCancel r now)) ∧
      findOrder (replaceOrder s orderId (applyCancel r now)) orderId =
        some (applyCancel r now o) ∧
      (applyCancel r now o).status = "cancelled") := by
  refine ⟨?_, ?_, ?_⟩
  · intro hst
    have hne : st ≠ "" := by
      rintro rfl
      simp [validStatuses] at hst
    have hne' : (st == "") = false := beq_eq_false_iff_ne.mpr hne
    have hcon : validStatuses.contains st = true := by
      simpa using hst
    refine ⟨?_, findOrder_replace s orderId _ (applyStatus_id st now) o hfind,
      applyStatus_status st now o⟩
    unfold updateStatus
    simp [strFalsy, hne', hcon, hfind, hst]
  · intro hstat
    unfold cancelOrder
    rw [hfind]
    have : (o.status == "shipped" || o.status == "delivered") = true := by
      rcases hstat with h | h <;> simp [h]
    simp [this]
  · intro h1 h2
    have hcond : (o.status == "shipped" || o.status == "delivered") = false := by
      simp [h1, h2]
    refine ⟨?_, findOrder_replace s orderId _ (applyCancel_id r now) o hfind, rfl⟩
    unfold cancelOrder
    rw [hfind]
    simp [hcond]

theorem updateStatus_unrestricted_witness :
    findOrder [("u", [mkOrder "shipped"])] "o1" = some (mkOrder "shipped") ∧
    updateStatus [("u", [mkOrder "shipped"])] "o1" (some "cancelled") 7 =
      .ok (replaceOrder [("u", [mkOrder "shipped"])] "o1" (applyStatus "cancelled" 7)) ∧
    (applyStatus "cancelled" 7 (mkOrder "shipped")).status = "cancelled" ∧
    cancelOrder [("u", [mkOrder "shipped"])] "o1" none 7 =
      .error ⟨400, "Cannot cancel order that has already been shipped or delivered"⟩ := by
  have hfind : findOrder [("u", [mkOrder "shipped"])] "o1" = some (mkOrder "shipped") := by
    norm_num +decide [findOrder, findInList, mkOrder]
  have h := updateStatus_unrestricted [("u", [mkOrder "shipped"])] "o1" "cancelled" 7
    (mkOrder "shipped") none hfind
  have hup := h.1 (by decide)
  exact ⟨hfind, hup.1, hup.2.2, h.2.1 (Or.inl rfl)⟩

/-- C6 counterexample: cancelling a pending order while giving the empty
string as the reason records the default "Cancelled by user", not the given
reason. -/
theorem cancel_empty_reason_defaulted :
    cancelOrder [("u", [mkOrder "pending"])] "o1" (some "") 3 =
      .ok [("u", [{ mkOrder "pending" with
                      status := "cancelled"
                      updatedAt := 3
                      cancellationReason := some "Cancelled by user" }])] ∧
    some "Cancelled by user" ≠ some ("" : String) := by
  constructor
  · norm_num +decide [cancelOrder, findOrder, findInList, replaceOrder,
      replaceInList, applyCancel, jsOrStr, mkOrder]
  · decide

/-- C6 amended: cancelling fails with a 400 conflict exactly when the order
is shipped or delivered; otherwise it succeeds, sets the status to
`cancelled` and records the given reason when that is a non-empty string,
falling back to "Cancelled by user" when the reason is omitted — or empty,
since the handler uses JavaScript `||`. -/
theorem cancelOrder_reason_spec (s : OrderStore) (orderId : String)
    (r : Option String) (now : ℕ) (o : Order)
    (hfind : findOrder s orderId = some o) :
    ((o.status = "shipped" ∨ o.status = "delivered") →
      cancelOrder s orderId r now =
        .error ⟨400, "Cannot cancel order that has already been shipped or delivered"⟩) ∧
    (o.status ≠ "shipped" → o.status ≠ "delivered" →
      cancelOrder s orderId r now =
        .ok (replaceOrder s orderId (applyCancel r now)) ∧
      findOrder (replaceOrder s orderId (applyCancel r now)) orderId =
        some (applyCancel r now o) ∧
      (applyCancel r now o).status = "cancelled" ∧
      (applyCancel r now o).cancellationReason =
        some (jsOrStr r "Cancelled by user")) ∧
    (∀ str : String, str ≠ "" → jsOrStr (some str) "Cancelled by user" = str) ∧
    jsOrStr none "Cancelled by user" = "Cancelled by user" ∧
    jsOrStr (some "") "Cancelled by user" = "Cancelled by user" := by
  refine ⟨?_, ?_, ?_, rfl, by simp [jsOrStr]⟩
  · intro hstat
    unfold cancelOrder
    rw [hfind]
    have : (o.status == "shipped" || o.status == "delivered") = true := by
      rcases hstat with h | h <;> simp [h]
    simp [this]
  · intro h1 h2
    have hcond : (o.status == "shipped" || o.status == "delivered") = false := by
      simp [h1, h2]
    refine ⟨?_, findOrder_replace s orderId _ (applyCancel_id r now) o hfind, rfl, rfl⟩
    unfold cancelOrder
    rw [hfind]
    simp [hcond]
  · intro str hstr
    simp [jsOrStr, hstr]

theorem cancelOrder_reason_spec_witness :
    findOrder [("u", [mkOrder "processing"])] "o1" = some (mkOrder "processing") ∧
    cancelOrder [("u", [mkOrder "processing"])] "o1" (some "changed my mind") 9 =
      .ok (replaceOrder [("u", [mkOrder "processing"])] "o1"
        (applyCancel (some "changed my mind") 9)) ∧
    (applyCancel (some "changed my mind") 9 (mkOrder "processing")).cancellationReason =
      some "changed my mind" := by
  have hfind : findOrder [("u", [mkOrder "processing"])] "o1" =
      some (mkOrder "processing") := by
    norm_num +decide [findOrder, findInList, mkOrder]
  have h := cancelOrder_reason_spec [("u", [mkOrder "processing"])] "o1"
    (some "changed my mind") 9 (mkOrder "processing") hfind
  have hok := h.2.1 (by decide) (by decide)
  have hr := h.2.2.1 "changed my mind" (by decide)
  exact ⟨hfind, hok.1, by rw [hok.2.2.2, hr]⟩

/-- C7: updating an order's status to a string outside the enum fails with a
400 validation error and leaves the store — the order included — unchanged. -/
theorem updateStatus_invalid_rejected (s : OrderStore) (orderId st : String)
    (now : ℕ) (h : st ∉ validStatuses) :
    errCode (updateStatus s orderId (some st) now) = some 400 ∧
    afterOrderOp s (updateStatus s orderId (some st) now) = s := by
  by_cases he : st = ""
  · subst he
    simp [updateStatus, strFalsy, errCode, afterOrderOp]
  · have hne : (st == "") = false := beq_eq_false_iff_ne.mpr he
    have hcon : validStatuses.contains st = false := by
      simpa using h
    simp [updateStatus, strFalsy, hne, hcon, errCode, afterOrderOp, h]

theorem updateStatus_invalid_rejected_witness :
    errCode (updateStatus [("u", [mkOrder "pending"])] "o1" (some "refunded") 0) =
      some 400 ∧
    afterOrderOp [("u", [mkOrder "pending"])]
      (updateStatus [("u", [mkOrder "pending"])] "o1" (some "refunded") 0) =
      [("u", [mkOrder "pending"])] :=
  updateStatus_invalid_rejected [("u", [mkOrder "pending"])] "o1" "refunded" 0
    (by decide)

/-! ### Claim theorems about the pricing computation -/

/-- The spec's example cart: one item with price 129.99 and quantity 2. -/
def exampleItems : List OrderItem := [⟨"i1", "1", "Wireless Headphones", 129.99, 2⟩]

/-- C1 counterexample: the stored tax is `S × 0.08` with no rounding to two
decimals, so on the spec's example cart the tax is 20.7984 (not 20.80) and
the total 280.7784 (not 280.78). -/
theorem orderTax_not_rounded :
    orderSubtotal exampleItems = 259.98 ∧
    orderTax (orderSubtotal exampleItems) ≠
      round2 (orderSubtotal exampleItems * (8 / 100)) ∧
    orderTax (orderSubtotal exampleItems) = 20.7984 ∧
    round2 (orderSubtotal exampleItems * (8 / 100)) = 20.80 ∧
    orderGrandTotal exampleItems = 280.7784 ∧
    orderGrandTotal exampleItems ≠ 280.78 := by
  refine ⟨?_, ?_, ?_, ?_, ?_, ?_⟩ <;>
    norm_num [orderSubtotal, orderTax, orderShipping, orderGrandTotal, round2,
      round_eq, exampleItems]

/-- C1 amended: for every item list with subtotal S, shipping is 0 when
S > 50 and 5.99 when S ≤ 50, tax is exactly S × 0.08 with NO rounding to
cents, and the stored total is S + tax + shipping; on the spec's example
cart the stored values are subtotal 259.98, shipping 0, tax 20.7984 and
total 280.7784 (displayed as 20.80 and 280.78 only after two-decimal
formatting in the UI). -/
theorem order_pricing (items : List OrderItem) :
    orderTax (orderSubtotal items) = orderSubtotal items * (8 / 100) ∧
    (50 < orderSubtotal items → orderShipping (orderSubtotal items) = 0) ∧
    (orderSubtotal items ≤ 50 → orderShipping (orderSubtotal items) = 599 / 100) ∧
    orderGrandTotal items =
      orderSubtotal items + orderTax (orderSubtotal items) +
        orderShipping (orderSubtotal items) := by
  refine ⟨rfl, ?_, ?_, rfl⟩
  · intro h
    simp [orderShipping, h]
  · intro h
    simp [orderShipping, not_lt.mpr h]

theorem order_pricing_witness :
    orderSubtotal exampleItems = 259.98 ∧
    50 < orderSubtotal exampleItems ∧
    orderShipping (orderSubtotal exampleItems) = 0 ∧
    orderTax (orderSubtotal exampleItems) = 20.7984 ∧
    orderGrandTotal exampleItems = 280.7784 := by
  have h50 : 50 < orderSubtotal exampleItems := by
    norm_num [orderSubtotal, exampleItems]
  refine ⟨by norm_num [orderSubtotal, exampleItems], h50,
    (order_pricing exampleItems).2.1 h50, ?_, ?_⟩
  · norm_num [orderTax, orderSubtotal, exampleItems]
  · norm_num [orderGrandTotal, orderSubtotal, orderTax, orderShipping, exampleItems]

/-! ### Claim theorem about the checkout subtotal -/

/-- `handleCheckout`'s order items: name and price fall back to
"Unknown Product" and 0 when the product is unresolved
(`product?.name || 'Unknown Product'`, `product?.price || 0`). -/
def checkoutItems (products : String → Option FEProduct)
    (items : List FECartItem) : List OrderItem :=
  items.map (fun it =>
    ⟨it.id, it.productId,
      jsOrStr ((products it.productId).map (·.name)) "Unknown Product",
      ((products it.productId).map (·.price)).getD 0, it.quantity⟩)

/-- Whether order creation succeeded. -/
def createOrderOk : Except ApiErr Order → Bool
  | .ok _ => true
  | .error _ => false

theorem calculateSubtotal_from (products : String → Option FEProduct)
    (items : List FECartItem) :
    ∀ a : ℚ,
      items.foldl
        (fun total it =>
          total + ((products it.productId).map (·.price)).getD 0 * it.quantity) a =
      a + ((items.filter (fun it => (products it.productId).isSome)).map
        (fun it => ((products it.productId).map (·.price)).getD 0 * it.quantity)).sum := by
  induction items with
  | nil => intro a; simp
  | cons hd tl ih =>
    intro a
    by_cases hp : (products hd.productId).isSome = true
    · simp only [List.foldl_cons, List.filter_cons, hp, if_true, List.map_cons,
        List.sum_cons, ih]
      ring
    · have hnone : products hd.productId = none :=
        Option.not_isSome_iff_eq_none.mp (by simpa using hp)
      have h0 : ((products hd.productId).map (·.price)).getD 0 = 0 := by
        rw [hnone]
        rfl
      simp only [List.foldl_cons, List.filter_cons, hp, Bool.false_eq_true,
        if_false, h0, zero_mul, add_zero, ih]

/-- C5: the checkout subtotal equals the sum of unit price × quantity over
exactly the items whose product resolves in the price lookup — unresolved
items contribute zero — and checkout with the resulting payload is not
rejected: order creation succeeds for any non-empty cart and present
user/address. -/
theorem calculateSubtotal_resolvable (products : String → Option FEProduct)
    (items : List FECartItem) :
    (calculateSubtotal products items =
      ((items.filter (fun it => (products it.productId).isSome)).map
        (fun it => ((products it.productId).map (·.price)).getD 0 * it.quantity)).sum) ∧
    (∀ (u : String) (addr : Address) (pm : Option String) (oid : String)
        (fids : ℕ → String) (t : ℕ), items ≠ [] → u ≠ "" →
      createOrderOk
        (createOrder u (some (checkoutItems products items)) (some addr) pm
          oid fids t) = true) := by
  constructor
  · rw [calculateSubtotal]
    simpa using calculateSubtotal_from products items 0
  · intro u addr pm oid fids t hitems hu
    have hu' : (u == "") = false := beq_eq_false_iff_ne.mpr hu
    have hlen : ((checkoutItems products items).length == 0) = false := by
      have : (checkoutItems products items).length = items.length := by
        simp [checkoutItems]
      rw [this]
      exact beq_eq_false_iff_ne.mpr (by simpa using hitems)
    simp [createOrder, hu', hlen, createOrderOk]

theorem calculateSubtotal_resolvable_witness :
    calculateSubtotal (fun _ => none) [⟨"a", "1", 2⟩] =
      (([] : List FECartItem).map (fun _ => (0 : ℚ))).sum ∧
    createOrderOk
      (createOrder "u" (some (checkoutItems (fun _ => none) [⟨"a", "1", 2⟩]))
        (some ⟨"", "", "", "", ""⟩) none "o" (fun _ => "x") 0) = true := by
  have h := calculateSubtotal_resolvable (fun _ => none) [⟨"a", "1", 2⟩]
  refine ⟨?_, h.2 "u" ⟨"", "", "", "", ""⟩ none "o" (fun _ => "x") 0
    (by decide) (by decide)⟩
  have h1 := h.1
  simpa using h1

end QodoShop
